import Mathlib

/-!
Verification development for the `norsk_lookup` desktop utility.

This file gives a shallow embedding, in Lean 4, of the parts of the Python
source that the specification's claims concern:

* `src/popup_ui.py` — `MonitorInfo`, `MonitorHelper.get_monitor_at_point`,
  `PopupManager.show` / `close_current` / `_position_popup` /
  `_position_popup_fallback`;
* `src/hotkey_monitor.py` — `Hotkey.is_pressed`, `HotkeyMonitor._check_hotkey`,
  `MultiHotkeyMonitor._check_all_hotkeys`;
* `src/src/text_capture.py` — `TextCapture.get_selected_text`, and
  `src/selection.py` — `copy_selection`;
* `src/src/main.py` — the first-word extraction in
  `TextDisplayApp._on_hotkey_pressed`;
* `src/src/update_checker.py` — `UpdateInfo._compare_versions`,
  `UpdateInfo.is_newer`, `UpdateChecker.check_for_updates`.

Machine-level / OS-level effects (tkinter windows, Win32 key state, COM
calls, the network) are modelled as explicit inputs or as explicit state:
the set of live toplevel windows is a list of ids, a keyboard snapshot is
the list of currently-down virtual key codes, a UI-Automation strategy's
outcome is an `Except` value, and the update checker's two HTTP fetches are
`Option UpdateInfo` parameters.  Python exceptions are modelled with
`Except`; a bare `try/except: pass` in the source becomes a `match` that
maps the error case to the fall-through behaviour, so every embedded
operation is a total Lean function.
-/

namespace NorskLookup

/-! ## Python string primitives

`str.strip()`, `str.split()` (split on whitespace runs) and `str.split('.')`
as used by the source, over `List Char`. Whitespace is the ASCII whitespace
set that Python's `str.strip`/`str.split` recognise. -/

/-- Python's notion of a whitespace character (ASCII part). -/
def pyIsSpace (c : Char) : Bool :=
  c == ' ' || c == '\t' || c == '\n' || c == '\r' ||
    c == Char.ofNat 11 || c == Char.ofNat 12

/-- `str.strip()` on a character list: drop whitespace from both ends. -/
def pyStripList (l : List Char) : List Char :=
  ((l.dropWhile pyIsSpace).reverse.dropWhile pyIsSpace).reverse

/-- `str.strip()`. -/
def pyStrip (s : String) : String :=
  ⟨pyStripList s.data⟩

/-- Helper for `str.split()`: accumulate the current word (reversed in
`acc`) and emit it when a whitespace character or the end is reached. -/
def splitWsAux : List Char → List Char → List (List Char)
  | [], acc => if acc.isEmpty then [] else [acc.reverse]
  | c :: cs, acc =>
    if pyIsSpace c then
      if acc.isEmpty then splitWsAux cs [] else acc.reverse :: splitWsAux cs []
    else
      splitWsAux cs (c :: acc)

/-- `str.split()` with no argument: split on whitespace runs, yielding no
empty words. -/
def pySplitWs (s : String) : List String :=
  (splitWsAux s.data []).map (fun l => ⟨l⟩)

/-- Truthiness of an optional string, as Python's `if not text:` sees it:
`None` and `""` are falsy, every other string is truthy. -/
def pyTruthy : Option String → Bool
  | none => false
  | some s => !(s == "")

/-! ### Facts about the string primitives -/

theorem splitWsAux_words_ok (l : List Char) :
    ∀ acc, (∀ c ∈ acc, pyIsSpace c = false) →
      ∀ w ∈ splitWsAux l acc, w ≠ [] ∧ ∀ c ∈ w, pyIsSpace c = false := by
  induction l with
  | nil =>
    intro acc hacc w hw
    simp only [splitWsAux] at hw
    by_cases h : acc.isEmpty
    · simp [h] at hw
    · rw [if_neg h] at hw
      rcases List.mem_singleton.mp hw with rfl
      refine ⟨by simpa [List.isEmpty_iff] using h, ?_⟩
      intro c hc
      exact hacc c (by simpa using hc)
  | cons c cs ih =>
    intro acc hacc w hw
    simp only [splitWsAux] at hw
    by_cases hsp : pyIsSpace c
    · simp only [hsp, if_true] at hw
      by_cases hemp : acc.isEmpty
      · simp only [hemp, if_true] at hw
        exact ih [] (by simp) w hw
      · rw [if_neg hemp] at hw
        rcases List.mem_cons.mp hw with rfl | hw
        · refine ⟨by simpa [List.isEmpty_iff] using hemp, ?_⟩
          intro d hd
          exact hacc d (by simpa using hd)
        · exact ih [] (by simp) w hw
    · simp only [hsp, if_false] at hw
      refine ih (c :: acc) ?_ w hw
      intro d hd
      rcases List.mem_cons.mp hd with rfl | hd
      · simpa using hsp
      · exact hacc d hd

theorem splitWsAux_ne_nil_of_acc (l : List Char) :
    ∀ acc, acc ≠ [] → splitWsAux l acc ≠ [] := by
  induction l with
  | nil =>
    intro acc hacc
    simp [splitWsAux, List.isEmpty_iff, hacc]
  | cons c cs ih =>
    intro acc hacc
    simp only [splitWsAux]
    by_cases hsp : pyIsSpace c
    · simp only [hsp, if_true]
      by_cases hemp : acc.isEmpty
      · exact absurd (List.isEmpty_iff.mp hemp) hacc
      · simp [hemp]
    · simp only [hsp, if_false]
      exact ih (c :: acc) (by simp)

theorem splitWsAux_ne_nil_of_head (c : Char) (cs : List Char)
    (h : pyIsSpace c = false) : splitWsAux (c :: cs) [] ≠ [] := by
  simp only [splitWsAux, h, if_false]
  exact splitWsAux_ne_nil_of_acc cs [c] (by simp)

theorem dropWhile_head_not {p : Char → Bool} :
    ∀ (l : List Char) (c : Char) (cs : List Char),
      l.dropWhile p = c :: cs → p c = false := by
  intro l
  induction l with
  | nil => intro c cs h; simp [List.dropWhile] at h
  | cons a l ih =>
    intro c cs h
    rw [List.dropWhile] at h
    by_cases ha : p a
    · exact ih c cs (by simpa [ha] using h)
    · simp only [ha, if_neg] at h
      cases h
      simpa using ha

theorem reverse_dropWhile_reverse_prefix (p : Char → Bool) (l : List Char) :
    (l.reverse.dropWhile p).reverse <+: l := by
  have h : l.reverse.dropWhile p <:+ l.reverse := List.dropWhile_suffix p
  have h2 : (l.reverse.dropWhile p).reverse <+: l.reverse.reverse :=
    List.reverse_prefix.mpr h
  simpa using h2

/-- A nonempty stripped string begins with a non-whitespace character. -/
theorem pyStripList_head_not_space (l : List Char) (c : Char) (cs : List Char)
    (h : pyStripList l = c :: cs) : pyIsSpace c = false := by
  have hpre : pyStripList l <+: l.dropWhile pyIsSpace :=
    reverse_dropWhile_reverse_prefix pyIsSpace (l.dropWhile pyIsSpace)
  rw [h] at hpre
  obtain ⟨t, ht⟩ := hpre
  exact dropWhile_head_not l c (cs ++ t)
    (by rw [← ht]; exact List.cons_append c cs t)

/-! ## Monitor geometry (`src/popup_ui.py`, `MonitorInfo` / `MonitorHelper`) -/

/-- `MonitorInfo` dataclass: a monitor rectangle in virtual-screen
coordinates (`src/popup_ui.py` lines 12-30). -/
structure MonitorInfo where
  left : Int
  top : Int
  right : Int
  bottom : Int
deriving Repr, DecidableEq

/-- `MonitorInfo.width` property. -/
def MonitorInfo.width (m : MonitorInfo) : Int := m.right - m.left

/-- `MonitorInfo.height` property. -/
def MonitorInfo.height (m : MonitorInfo) : Int := m.bottom - m.top

/-- `MonitorInfo.contains_point`: half-open containment test
(`self.left <= x < self.right and self.top <= y < self.bottom`). -/
def MonitorInfo.containsPoint (m : MonitorInfo) (x y : Int) : Bool :=
  decide (m.left ≤ x) && decide (x < m.right) &&
    decide (m.top ≤ y) && decide (y < m.bottom)

/-- The `for monitor in monitors` loop body of
`MonitorHelper.get_monitor_at_point`: return the first rectangle that
contains the point. -/
def findMonitorLoop : List MonitorInfo → Int → Int → Option MonitorInfo
  | [], _, _ => none
  | m :: rest, x, y =>
    if m.containsPoint x y then some m else findMonitorLoop rest x y

/-- `MonitorHelper.get_monitor_at_point` (`src/popup_ui.py` lines 67-77):
the loop above, then `monitors[0] if monitors else None` as fallback.  The
enumerated monitor list is passed in explicitly (in the source it comes
from `EnumDisplayMonitors`). -/
def getMonitorAtPoint (monitors : List MonitorInfo) (x y : Int) :
    Option MonitorInfo :=
  match findMonitorLoop monitors x y with
  | some m => some m
  | none => monitors.head?

theorem findMonitorLoop_eq_none (monitors : List MonitorInfo) (x y : Int)
    (h : findMonitorLoop monitors x y = none) :
    ∀ m ∈ monitors, m.containsPoint x y = false := by
  induction monitors with
  | nil => intro m hm; simp at hm
  | cons a rest ih =>
    intro m hm
    rw [findMonitorLoop] at h
    by_cases ha : a.containsPoint x y
    · simp [ha] at h
    · rcases List.mem_cons.mp hm with rfl | hm
      · simpa using ha
      · exact ih (by simpa [ha] using h) m hm

theorem findMonitorLoop_eq_some (monitors : List MonitorInfo) (x y : Int)
    (m : MonitorInfo) (h : findMonitorLoop monitors x y = some m) :
    ∃ i, monitors.get? i = some m ∧ m.containsPoint x y = true ∧
      ∀ j, j < i → ∀ mj, monitors.get? j = some mj →
        mj.containsPoint x y = false := by
  induction monitors generalizing m with
  | nil => simp [findMonitorLoop] at h
  | cons a rest ih =>
    rw [findMonitorLoop] at h
    by_cases ha : a.containsPoint x y
    · have ham : a = m := by
        rw [if_pos ha] at h
        exact Option.some.inj h
      subst ham
      refine ⟨0, by simp, ha, ?_⟩
      intro j hj mj hmj; omega
    · obtain ⟨i, hi, hcp, hprev⟩ := ih m (by simpa [ha] using h)
      refine ⟨i + 1, by simpa using hi, hcp, ?_⟩
      intro j hj mj hmj
      cases j with
      | zero =>
        simp only [List.get?] at hmj
        rcases Option.some.inj hmj with rfl
        simpa using ha
      | succ k =>
        exact hprev k (by omega) mj (by simpa using hmj)

/-- C6 — `monitor_at` correctness: for every non-empty monitor list and
point, `get_monitor_at_point` returns the first rectangle containing the
point under half-open containment, and when no rectangle contains the
point it returns the first enumerated monitor; it never returns `None`
when at least one monitor exists. -/
theorem getMonitorAtPoint_first (monitors : List MonitorInfo) (x y : Int)
    (hne : monitors ≠ []) :
    ∃ m, getMonitorAtPoint monitors x y = some m ∧
      ((∃ i, monitors.get? i = some m ∧ m.containsPoint x y = true ∧
          ∀ j, j < i → ∀ mj, monitors.get? j = some mj →
            mj.containsPoint x y = false) ∨
        ((∀ m' ∈ monitors, m'.containsPoint x y = false) ∧
          monitors.head? = some m)) ∧
      (∀ mi : MonitorInfo, mi.containsPoint x y = true ↔
        (mi.left ≤ x ∧ x < mi.right ∧ mi.top ≤ y ∧ y < mi.bottom)) := by
  have hcp : ∀ mi : MonitorInfo, mi.containsPoint x y = true ↔
      (mi.left ≤ x ∧ x < mi.right ∧ mi.top ≤ y ∧ y < mi.bottom) := by
    intro mi
    simp [MonitorInfo.containsPoint, and_assoc]
  unfold getMonitorAtPoint
  cases hfind : findMonitorLoop monitors x y with
  | some m =>
    exact ⟨m, rfl, Or.inl (findMonitorLoop_eq_some monitors x y m hfind), hcp⟩
  | none =>
    cases monitors with
    | nil => exact absurd rfl hne
    | cons a rest =>
      exact ⟨a, rfl,
        Or.inr ⟨findMonitorLoop_eq_none _ x y hfind, rfl⟩, hcp⟩

/-- Witness for C6 at a concrete two-monitor layout and a point contained
in the second monitor only. -/
theorem getMonitorAtPoint_first_witness :
    ([MonitorInfo.mk 0 0 100 100, MonitorInfo.mk 100 0 200 100] ≠ []) ∧
      ∃ m, getMonitorAtPoint
          [MonitorInfo.mk 0 0 100 100, MonitorInfo.mk 100 0 200 100]
          150 50 = some m ∧
        ((∃ i, [MonitorInfo.mk 0 0 100 100,
              MonitorInfo.mk 100 0 200 100].get? i = some m ∧
            m.containsPoint 150 50 = true ∧
            ∀ j, j < i → ∀ mj,
              [MonitorInfo.mk 0 0 100 100,
                MonitorInfo.mk 100 0 200 100].get? j = some mj →
              mj.containsPoint 150 50 = false) ∨
          ((∀ m' ∈ [MonitorInfo.mk 0 0 100 100,
              MonitorInfo.mk 100 0 200 100],
              m'.containsPoint 150 50 = false) ∧
            [MonitorInfo.mk 0 0 100 100,
              MonitorInfo.mk 100 0 200 100].head? = some m)) ∧
        (∀ mi : MonitorInfo, mi.containsPoint 150 50 = true ↔
          (mi.left ≤ 150 ∧ 150 < mi.right ∧ mi.top ≤ 50 ∧ 50 < mi.bottom)) :=
  ⟨by decide,
    getMonitorAtPoint_first
      [MonitorInfo.mk 0 0 100 100, MonitorInfo.mk 100 0 200 100]
      150 50 (by decide)⟩

/-! ## Popup positioning (`src/popup_ui.py`, `PopupManager._position_popup`) -/

/-- The clamping arithmetic of `PopupManager._position_popup`
(`src/popup_ui.py` lines 224-243), once the monitor containing the base
point has been found: start at `(base + offset)`, pull back by
`monitor.right - width - 10` when overflowing on the right, push to
`monitor.left + 10` when overflowing on the left, and likewise
vertically.  `cx, cy` is the base point (the cursor position in the
source), `offx, offy` are `config.offset_x/offset_y`, `w, h` the popup's
measured width and height. -/
def positionPopupInMonitor (m : MonitorInfo) (cx cy offx offy w h : Int) :
    Int × Int :=
  let x0 := cx + offx
  let y0 := cy + offy
  let x1 := if x0 + w > m.right then m.right - w - 10 else x0
  let x2 := if x1 < m.left then m.left + 10 else x1
  let y1 := if y0 + h > m.bottom then m.bottom - h - 10 else y0
  let y2 := if y1 < m.top then m.top + 10 else y1
  (x2, y2)

/-- `PopupManager._position_popup_fallback` (`src/popup_ui.py` lines
245-260): clamp against the primary screen size only, with no clamp at the
low edges. -/
def positionPopupFallback (cx cy offx offy w h sw sh : Int) : Int × Int :=
  let x0 := cx + offx
  let y0 := cy + offy
  let x1 := if x0 + w > sw then sw - w - 10 else x0
  let y1 := if y0 + h > sh then sh - h - 10 else y0
  (x1, y1)

/-- `PopupManager._position_popup` (`src/popup_ui.py` lines 209-243):
find the monitor containing the base point and clamp inside it; if
monitor lookup yields nothing, use the fallback path. -/
def positionPopup (monitors : List MonitorInfo) (cx cy offx offy w h sw sh :
    Int) : Int × Int :=
  match getMonitorAtPoint monitors cx cy with
  | some m => positionPopupInMonitor m cx cy offx offy w h
  | none => positionPopupFallback cx cy offx offy w h sw sh

/-- C5, counterexample — the claim quantifies over every popup strictly
smaller than the monitor, but the clamping margin is 10 pixels: on a
single 100×100 monitor, a 95×50 popup shown from base point `(0,0)` with
the default `(10,10)` offsets ends at `x = 10`, and `10 + 95 > 100`, so
the popup's right edge leaves the monitor. -/
theorem positionPopup_margin_counterexample :
    (95 < (MonitorInfo.mk 0 0 100 100).width ∧
      50 < (MonitorInfo.mk 0 0 100 100).height) ∧
    getMonitorAtPoint [MonitorInfo.mk 0 0 100 100] 0 0 =
      some (MonitorInfo.mk 0 0 100 100) ∧
    (positionPopup [MonitorInfo.mk 0 0 100 100] 0 0 10 10 95 50 100 100).1
      + 95 > (MonitorInfo.mk 0 0 100 100).right := by
  refine ⟨⟨?_, ?_⟩, ?_, ?_⟩ <;> decide

/-- C5, amended — popup clamping keeps the popup inside the monitor
containing the base point provided the popup leaves room for the code's
10-pixel clamping margin: whenever `w + 10 ≤ monitor width` and
`h + 10 ≤ monitor height`, the computed top-left keeps the whole `w × h`
rectangle inside the monitor's bounds, for every base point and every
offset pair. -/
theorem positionPopup_in_bounds (monitors : List MonitorInfo)
    (cx cy offx offy w h sw sh : Int) (m : MonitorInfo)
    (hm : getMonitorAtPoint monitors cx cy = some m)
    (hw : w + 10 ≤ m.width) (hh : h + 10 ≤ m.height) :
    m.left ≤ (positionPopup monitors cx cy offx offy w h sw sh).1 ∧
    (positionPopup monitors cx cy offx offy w h sw sh).1 + w ≤ m.right ∧
    m.top ≤ (positionPopup monitors cx cy offx offy w h sw sh).2 ∧
    (positionPopup monitors cx cy offx offy w h sw sh).2 + h ≤ m.bottom := by
  rw [MonitorInfo.width] at hw
  rw [MonitorInfo.height] at hh
  unfold positionPopup
  rw [hm]
  unfold positionPopupInMonitor
  dsimp only
  split_ifs <;> refine ⟨by omega, by omega, by omega, by omega⟩

/-- Witness for C5 (amended) on a concrete monitor, base point, offsets
and popup size. -/
theorem positionPopup_in_bounds_witness :
    ((0 : Int) ≤ (positionPopup [MonitorInfo.mk 0 0 1920 1080]
        1900 1060 10 10 300 200 1920 1080).1 ∧
      (positionPopup [MonitorInfo.mk 0 0 1920 1080]
        1900 1060 10 10 300 200 1920 1080).1 + 300 ≤ 1920 ∧
      (0 : Int) ≤ (positionPopup [MonitorInfo.mk 0 0 1920 1080]
        1900 1060 10 10 300 200 1920 1080).2 ∧
      (positionPopup [MonitorInfo.mk 0 0 1920 1080]
        1900 1060 10 10 300 200 1920 1080).2 + 200 ≤ 1080) :=
  positionPopup_in_bounds [MonitorInfo.mk 0 0 1920 1080]
    1900 1060 10 10 300 200 1920 1080 (MonitorInfo.mk 0 0 1920 1080)
    (by decide) (by decide) (by decide)

/-! ## Popup lifecycle (`src/popup_ui.py`, `PopupManager.show` /
`close_current`)

The tkinter window system is modelled as a set of live toplevel-window
ids: `Toplevel(...)` creates a fresh id, `destroy()` removes it (and
raises if the window no longer exists, as tkinter does).  `PopupManager`
holds `current_popup : Option` of a window id.  The `_focus_check_id`
bookkeeping of `close_current` only cancels a pending timer and affects
no popup state, so it is not modelled. -/

/-- The window system: the next fresh id and the list of live toplevels. -/
structure TkState where
  nextId : Nat
  live : List Nat
deriving Repr, DecidableEq

/-- `widget.destroy()`: removes a live window, raises (`Except.error`) on
a window that no longer exists. -/
def destroyWindow (w : Nat) (tk : TkState) : Except Unit TkState :=
  if w ∈ tk.live then Except.ok { tk with live := tk.live.erase w }
  else Except.error ()

/-- `tk.Toplevel(root)`: creates a fresh window id. -/
def createWindow (tk : TkState) : Nat × TkState :=
  (tk.nextId, { nextId := tk.nextId + 1, live := tk.nextId :: tk.live })

/-- The `PopupManager` fields relevant to popup lifetime. -/
structure PopupManagerState where
  current_popup : Option Nat
deriving Repr, DecidableEq

/-- `PopupManager.close_current` (`src/popup_ui.py` lines 158-173):
destroy `current_popup` if set — with the `destroy` call wrapped in
`try/except: pass`, so a dead window is ignored — and reset the field to
`None`.  On `current_popup = None` nothing happens at all. -/
def closeCurrent : PopupManagerState → TkState →
    PopupManagerState × TkState
  | ⟨none⟩, tk => (⟨none⟩, tk)
  | ⟨some w⟩, tk =>
    match destroyWindow w tk with
    | Except.ok tk' => (⟨none⟩, tk')
    | Except.error _ => (⟨none⟩, tk)

/-- `PopupManager.show` (`src/popup_ui.py` lines 133-156): first
`close_current`, then return on falsy text (`if not text: return`),
otherwise create the new popup and store it in `current_popup`.  `text`
is an `Option String` so that the `show(None)` call shape is
representable. -/
def showPopup (text : Option String) (pm : PopupManagerState)
    (tk : TkState) : PopupManagerState × TkState :=
  let s1 := closeCurrent pm tk
  if pyTruthy text = false then s1
  else
    let c := createWindow s1.2
    (⟨some c.1⟩, c.2)

/-- One externally observable `PopupManager` call. -/
inductive PMOp where
  | showOp (text : Option String)
  | closeOp
deriving Repr, DecidableEq

/-- Apply one call to the paired manager/window-system state. -/
def applyPMOp (st : PopupManagerState × TkState) : PMOp →
    PopupManagerState × TkState
  | PMOp.showOp t => showPopup t st.1 st.2
  | PMOp.closeOp => closeCurrent st.1 st.2

/-- A fresh `PopupManager` over a window system with no popups. -/
def initPMState : PopupManagerState × TkState := (⟨none⟩, ⟨0, []⟩)

/-- Run a sequence of `show` / `close_current` calls from the initial
state. -/
def runPMOps (ops : List PMOp) : PopupManagerState × TkState :=
  ops.foldl applyPMOp initPMState

/-- Structural invariant of a `PopupManager` state: live window ids are
distinct, every live window is the tracked `current_popup`, and ids are
below the allocator's `nextId`. -/
def PMInv (st : PopupManagerState × TkState) : Prop :=
  st.2.live.Nodup ∧
  (∀ w ∈ st.2.live, st.1.current_popup = some w) ∧
  (∀ w ∈ st.2.live, w < st.2.nextId) ∧
  (∀ w, st.1.current_popup = some w → w < st.2.nextId)

theorem closeCurrent_eq_none (pm : PopupManagerState) (tk : TkState)
    (h : pm.current_popup = none) : closeCurrent pm tk = (pm, tk) := by
  obtain ⟨cur⟩ := pm
  have hc : cur = none := h
  subst hc
  rfl

theorem closeCurrent_eq_some (pm : PopupManagerState) (tk : TkState)
    (w : Nat) (h : pm.current_popup = some w) :
    closeCurrent pm tk =
      (⟨none⟩, if w ∈ tk.live then { tk with live := tk.live.erase w }
        else tk) := by
  obtain ⟨cur⟩ := pm
  have hc : cur = some w := h
  subst hc
  show (match destroyWindow w tk with
    | Except.ok tk' => ((⟨none⟩ : PopupManagerState), tk')
    | Except.error _ => ((⟨none⟩ : PopupManagerState), tk)) = _
  unfold destroyWindow
  by_cases hw : w ∈ tk.live
  · rw [if_pos hw, if_pos hw]
  · rw [if_neg hw, if_neg hw]

/-- Under `PMInv`, the live-window list is empty or exactly the tracked
popup. -/
theorem pminv_live_cases (st : PopupManagerState × TkState) (h : PMInv st) :
    st.2.live = [] ∨
      ∃ w, st.1.current_popup = some w ∧ st.2.live = [w] := by
  obtain ⟨hnd, hcur, _, _⟩ := h
  cases hl : st.2.live with
  | nil => exact Or.inl rfl
  | cons a rest =>
    have ha : st.1.current_popup = some a :=
      hcur a (by rw [hl]; exact List.mem_cons_self a rest)
    refine Or.inr ⟨a, ha, ?_⟩
    cases hr : rest with
    | nil => rfl
    | cons b rest2 =>
      have hb : st.1.current_popup = some b :=
        hcur b (by rw [hl, hr]; simp)
      have hab : a = b := by
        rw [ha] at hb
        exact Option.some.inj hb
      subst hab
      have hnd2 := hnd
      rw [hl, hr] at hnd2
      simp at hnd2

theorem pminv_closeCurrent (st : PopupManagerState × TkState)
    (h : PMInv st) : PMInv (closeCurrent st.1 st.2) ∧
      (closeCurrent st.1 st.2).2.live = [] ∧
      (closeCurrent st.1 st.2).1.current_popup = none ∧
      (closeCurrent st.1 st.2).2.nextId = st.2.nextId := by
  obtain ⟨hnd, hcur, hlt, hclt⟩ := h
  rcases pminv_live_cases st ⟨hnd, hcur, hlt, hclt⟩ with hlive | ⟨w, hc, hlive⟩
  · cases hc : st.1.current_popup with
    | none =>
      rw [closeCurrent_eq_none st.1 st.2 hc]
      exact ⟨⟨hnd, hcur, hlt, hclt⟩, hlive, hc, rfl⟩
    | some w =>
      rw [closeCurrent_eq_some st.1 st.2 w hc]
      rw [if_neg (by rw [hlive]; simp)]
      refine ⟨⟨hnd, ?_, hlt, by simp⟩, hlive, rfl, rfl⟩
      intro u hu
      rw [hlive] at hu
      simp at hu
  · rw [closeCurrent_eq_some st.1 st.2 w hc]
    rw [if_pos (by rw [hlive]; simp)]
    refine ⟨⟨?_, ?_, ?_, by simp⟩, ?_, rfl, rfl⟩
    · simp [hlive]
    · intro u hu
      simp [hlive] at hu
    · intro u hu
      simp [hlive] at hu
    · simp [hlive]

theorem pminv_showPopup (t : Option String)
    (st : PopupManagerState × TkState) (h : PMInv st) :
    PMInv (showPopup t st.1 st.2) := by
  obtain ⟨hinv, hlive, hcur, hnext⟩ := pminv_closeCurrent st h
  obtain ⟨hnd1, hcur1, hlt1, hclt1⟩ := hinv
  unfold showPopup
  by_cases ht : pyTruthy t = false
  · rw [if_pos ht]
    exact ⟨hnd1, hcur1, hlt1, hclt1⟩
  · rw [if_neg ht]
    unfold createWindow
    refine ⟨?_, ?_, ?_, ?_⟩
    · simp [hlive]
    · intro w hw
      simp only [hlive] at hw
      simp at hw
      simp [hw]
    · intro w hw
      simp only [hlive] at hw
      simp at hw
      simp [hw]
    · intro w hw
      simp only at hw
      rcases Option.some.inj hw with rfl
      simp

theorem pminv_foldl (ops : List PMOp) :
    ∀ st, PMInv st → PMInv (ops.foldl applyPMOp st) := by
  induction ops with
  | nil => intro st h; simpa using h
  | cons op rest ih =>
    intro st h
    rw [List.foldl_cons]
    refine ih _ ?_
    cases op with
    | showOp t => exact pminv_showPopup t st h
    | closeOp => exact (pminv_closeCurrent st h).1

theorem pminv_init : PMInv initPMState := by
  refine ⟨by simp [initPMState], ?_, ?_, ?_⟩
  · intro w hw; simp [initPMState] at hw
  · intro w hw; simp [initPMState] at hw
  · intro w hw; simp [initPMState] at hw

theorem pminv_runPMOps (ops : List PMOp) : PMInv (runPMOps ops) :=
  pminv_foldl ops initPMState pminv_init

theorem pminv_live_length (st : PopupManagerState × TkState)
    (h : PMInv st) : st.2.live.length ≤ 1 := by
  rcases pminv_live_cases st h with hl | ⟨w, _, hl⟩ <;> simp [hl]

/-- C2 — single-popup invariant: (1) after any sequence of
`PopupManager.show` / `close_current` calls there is at most one live
popup window; (2) `close_current` on the Empty state (`current_popup =
None`) changes nothing and raises nothing; (3) a `show` call destroys the
previously tracked popup: its window id is no longer live afterwards. -/
theorem popupManager_single_popup (ops : List PMOp) :
    (runPMOps ops).2.live.length ≤ 1 ∧
    (∀ tk : TkState, closeCurrent ⟨none⟩ tk = (⟨none⟩, tk)) ∧
    (∀ (t : Option String) (st : PopupManagerState × TkState) (w : Nat),
      PMInv st → st.1.current_popup = some w →
        w ∉ (showPopup t st.1 st.2).2.live) := by
  refine ⟨pminv_live_length _ (pminv_runPMOps ops), ?_, ?_⟩
  · intro tk
    exact closeCurrent_eq_none ⟨none⟩ tk rfl
  · intro t st w h hw
    obtain ⟨hinv, hlive, hcur, hnext⟩ := pminv_closeCurrent st h
    have hwlt : w < st.2.nextId := h.2.2.2 w hw
    unfold showPopup
    by_cases ht : pyTruthy t = false
    · rw [if_pos ht]
      rw [hlive]
      simp
    · rw [if_neg ht]
      unfold createWindow
      dsimp only
      rw [hlive, hnext]
      intro hmem
      simp at hmem
      omega

/-- Witness for C2 at a concrete call sequence and a concrete `show`
update over a well-formed state. -/
theorem popupManager_single_popup_witness :
    (runPMOps [PMOp.showOp (some "Thinking..."),
        PMOp.showOp (some "hei: hello"), PMOp.closeOp,
        PMOp.showOp (some "x")]).2.live.length ≤ 1 ∧
      closeCurrent ⟨none⟩ ⟨5, []⟩ = (⟨none⟩, ⟨5, []⟩) ∧
      3 ∉ (showPopup (some "ny tekst") ⟨some 3⟩ ⟨4, [3]⟩).2.live := by
  obtain ⟨h1, h2, h3⟩ := popupManager_single_popup
    [PMOp.showOp (some "Thinking..."), PMOp.showOp (some "hei: hello"),
      PMOp.closeOp, PMOp.showOp (some "x")]
  refine ⟨h1, h2 ⟨5, []⟩, h3 (some "ny tekst") (⟨some 3⟩, ⟨4, [3]⟩) 3 ?_ rfl⟩
  refine ⟨by simp, ?_, ?_, ?_⟩
  · intro w hw
    simp at hw
    simp [hw]
  · intro w hw
    simp at hw
    simp [hw]
  · intro w hw
    simp at hw
    show w < 4
    omega

/-- C7 — empty `show` closes: calling `show` with `""` or `None` as text,
from any well-formed state (Empty or Showing), leaves no visible popup —
any previously showing popup is destroyed, none is created, and the call
raises nothing (it is a total function of the state). -/
theorem showPopup_empty_closes (t : Option String)
    (st : PopupManagerState × TkState) (h : PMInv st)
    (ht : pyTruthy t = false) :
    (showPopup t st.1 st.2).1.current_popup = none ∧
    (showPopup t st.1 st.2).2.live = [] := by
  obtain ⟨hinv, hlive, hcur, hnext⟩ := pminv_closeCurrent st h
  unfold showPopup
  rw [if_pos ht]
  exact ⟨hcur, hlive⟩

/-- Witness for C7: `show(None)` from a Showing state and `show("")` from
the Empty state both end with no popup. -/
theorem showPopup_empty_closes_witness :
    ((showPopup none ⟨some 0⟩ ⟨1, [0]⟩).1.current_popup = none ∧
      (showPopup none ⟨some 0⟩ ⟨1, [0]⟩).2.live = []) ∧
    ((showPopup (some "") ⟨none⟩ ⟨0, []⟩).1.current_popup = none ∧
      (showPopup (some "") ⟨none⟩ ⟨0, []⟩).2.live = []) := by
  constructor
  · refine showPopup_empty_closes none (⟨some 0⟩, ⟨1, [0]⟩) ?_ rfl
    refine ⟨by simp, ?_, ?_, ?_⟩
    · intro w hw
      simp at hw
      simp [hw]
    · intro w hw
      simp at hw
      simp [hw]
    · intro w hw
      simp at hw
      simp [hw]
  · refine showPopup_empty_closes (some "") (⟨none⟩, ⟨0, []⟩) ?_ rfl
    refine ⟨by simp, ?_, ?_, ?_⟩
    · intro w hw
      simp at hw
    · intro w hw
      simp at hw
    · intro w hw
      simp at hw

/-! ## Fixed-position popup updates (position-aware `PopupManager`)

`src/src/main.py` calls `popup_manager.show("Thinking...",
position=cursor_pos)` and later `popup_manager.show(display_text)` with
no position, but the position-aware `popup_ui` module it imports is not
under `src/` (the `src/popup_ui.py` present there has `show(text)` with no
`position` parameter).  The state machine below is therefore modelled
from the spec. -/

/-- Modelled from the spec: the position-aware `PopupManager` that
`src/src/main.py` imports (`show(text, position?)` plus the stored "fixed
position"); the module defining it is missing from `src/`.  Spec §4.4:
`show(text, position=explicit)` → Showing at `explicit`, which becomes
the fixed position for subsequent update-calls; `show(text,
position=None)` from Showing reuses the stored fixed position, from Empty
places at the current cursor; `show("", …)` → Empty.  The popup is
recorded with the base position it was shown at. -/
structure FixedPosPMState where
  current : Option (String × Int × Int)
  fixed_position : Option (Int × Int)
deriving Repr, DecidableEq

/-- Modelled from the spec: `show(text, position?)` of the position-aware
`PopupManager` (see `FixedPosPMState`).  `cursor` is the cursor position
at call time. -/
def fixedPosShow (s : FixedPosPMState) (text : Option String)
    (pos : Option (Int × Int)) (cursor : Int × Int) : FixedPosPMState :=
  if pyTruthy text = false then ⟨none, none⟩
  else
    let t := text.getD ""
    match pos with
    | some p => ⟨some (t, p), some p⟩
    | none =>
      match s.current, s.fixed_position with
      | some _, some q => ⟨some (t, q), some q⟩
      | _, _ => ⟨some (t, cursor), none⟩

/-- C1 — two-phase fixed-position update: `show(t₁, position = P)` shows
the popup at `P` and stores `P` as the fixed position; a following
`show(t₂)` with no position re-displays at exactly `P`, for every state,
every pair of non-empty texts and every cursor position at the second
call (i.e. however the cursor moved in between). -/
theorem fixedPosShow_two_phase (s : FixedPosPMState) (t1 t2 : String)
    (P c1 c2 : Int × Int) (h1 : t1 ≠ "") (h2 : t2 ≠ "") :
    (fixedPosShow s (some t1) (some P) c1).current = some (t1, P) ∧
    (fixedPosShow s (some t1) (some P) c1).fixed_position = some P ∧
    (fixedPosShow (fixedPosShow s (some t1) (some P) c1) (some t2) none
      c2).current = some (t2, P) := by
  have ht1 : ¬(pyTruthy (some t1) = false) := by
    simp [pyTruthy, h1]
  have ht2 : ¬(pyTruthy (some t2) = false) := by
    simp [pyTruthy, h2]
  unfold fixedPosShow
  rw [if_neg ht1, if_neg ht2]
  exact ⟨rfl, rfl, rfl⟩

/-- Witness for C1: placeholder at `P = (400, 300)`, then a final text
with the cursor meanwhile moved to `(0, 0)`. -/
theorem fixedPosShow_two_phase_witness :
    (fixedPosShow ⟨none, none⟩ (some "Thinking...") (some (400, 300))
        (400, 300)).current = some ("Thinking...", 400, 300) ∧
    (fixedPosShow ⟨none, none⟩ (some "Thinking...") (some (400, 300))
        (400, 300)).fixed_position = some (400, 300) ∧
    (fixedPosShow
        (fixedPosShow ⟨none, none⟩ (some "Thinking...") (some (400, 300))
          (400, 300))
        (some "hei: hello") none (0, 0)).current =
      some ("hei: hello", 400, 300) :=
  fixedPosShow_two_phase ⟨none, none⟩ "Thinking..." "hei: hello"
    (400, 300) (400, 300) (0, 0) (by decide) (by decide)

/-! ## Hotkey monitoring (`src/hotkey_monitor.py`)

A keyboard snapshot at one poll tick is the list of virtual key codes
whose `GetAsyncKeyState` high bit is set.  `Hotkey.is_pressed` asks
whether every chord member is down in the snapshot. -/

/-- `Hotkey.is_pressed` (`src/hotkey_monitor.py` lines 24-29): all keys of
the chord are currently down. -/
def isPressed (keys : List Nat) (down : List Nat) : Bool :=
  keys.all (fun k => down.contains k)

/-- `HotkeyMonitor._check_hotkey` (`src/hotkey_monitor.py` lines 81-92)
acting on the `triggered` flag at one poll tick.  Result: the new
`triggered` flag, and whether the callback was invoked on this tick. -/
def checkHotkey (keys : List Nat) (triggered : Bool) (down : List Nat) :
    Bool × Bool :=
  if isPressed keys down then (true, !triggered) else (false, false)

/-- The poll loop `HotkeyMonitor._monitor_loop` over a finite trace of
keyboard snapshots: the list of "callback invoked at this tick" flags. -/
def runMonitor (keys : List Nat) : Bool → List (List Nat) → List Bool
  | _, [] => []
  | triggered, down :: rest =>
    let r := checkHotkey keys triggered down
    r.2 :: runMonitor keys r.1 rest

theorem runMonitor_length (keys : List Nat) (t0 : Bool)
    (ticks : List (List Nat)) :
    (runMonitor keys t0 ticks).length = ticks.length := by
  induction ticks generalizing t0 with
  | nil => rfl
  | cons d rest ih => simp [runMonitor, ih]

theorem runMonitor_getD (keys : List Nat) (t0 : Bool)
    (ticks : List (List Nat)) (i : Nat) (hi : i < ticks.length) :
    (runMonitor keys t0 ticks).getD i false =
      (isPressed keys (ticks.getD i []) &&
        (if i = 0 then !t0 else !isPressed keys (ticks.getD (i - 1) []))) := by
  induction ticks generalizing t0 i with
  | nil => simp at hi
  | cons d rest ih =>
    cases i with
    | zero =>
      simp only [runMonitor, checkHotkey]
      by_cases hp : isPressed keys d
      · simp [hp]
      · simp [hp]
    | succ j =>
      have hj : j < rest.length := by simpa using hi
      simp only [runMonitor, checkHotkey]
      by_cases hp : isPressed keys d
      · rw [if_pos hp]
        have := ih true j hj
        simp only [List.getD_cons_succ]
        rw [this]
        cases j with
        | zero => simp [hp]
        | succ k => simp
      · rw [if_neg hp]
        have := ih false j hj
        simp only [List.getD_cons_succ]
        rw [this]
        cases j with
        | zero => simp [hp]
        | succ k => simp

/-- C3 — hotkey edge-triggering: starting from the initial un-triggered
state, the callback fires at tick `i` exactly when the whole chord is
observed down at tick `i` and either `i` is the first tick or the chord
was not fully down at tick `i - 1`.  Hence it fires exactly once per
continuous fully-satisfied interval — on that interval's first tick — and
re-arms only after a tick on which some chord member is up; the
characterization only reads the per-tick snapshot through `is_pressed`,
so it is independent of the order in which the chord's keys were
pressed. -/
theorem checkHotkey_edge_triggered (keys : List Nat)
    (ticks : List (List Nat)) (i : Nat) (hi : i < ticks.length) :
    ((runMonitor keys false ticks).getD i false = true ↔
      (isPressed keys (ticks.getD i []) = true ∧
        (i = 0 ∨ isPressed keys (ticks.getD (i - 1) []) = false))) := by
  rw [runMonitor_getD keys false ticks i hi]
  cases i with
  | zero => simp
  | succ j =>
    by_cases hp : isPressed keys (ticks.getD (j + 1) []) <;>
      by_cases hq : isPressed keys (ticks.getD j []) <;>
        simp [hp, hq]

/-- Witness for C3 with chord Alt+P+N (0x12, 0x50, 0x4E): ticks where the
chord completes at tick 1, stays held at tick 2 (no re-fire), P is
released at tick 3, and the chord is re-completed at tick 4 (fires
again). -/
theorem checkHotkey_edge_triggered_witness :
    ((runMonitor [18, 80, 78] false
        [[18, 80], [80, 18, 78], [18, 80, 78], [18, 78], [78, 80, 18]]).getD
        4 false = true ↔
      (isPressed [18, 80, 78]
          ([[18, 80], [80, 18, 78], [18, 80, 78], [18, 78],
            [78, 80, 18]].getD 4 []) = true ∧
        (4 = 0 ∨ isPressed [18, 80, 78]
          ([[18, 80], [80, 18, 78], [18, 80, 78], [18, 78],
            [78, 80, 18]].getD 3 []) = false))) :=
  checkHotkey_edge_triggered [18, 80, 78]
    [[18, 80], [80, 18, 78], [18, 80, 78], [18, 78], [78, 80, 18]] 4
    (by decide)

/-! ## Multi-hotkey checking with failing callbacks
(`src/hotkey_monitor.py`, `MultiHotkeyMonitor._check_all_hotkeys`)

A registered pair is a chord plus the outcome its callback produces when
invoked (`Except.ok ()` for a normal return, `Except.error msg` for a
raised exception).  `_check_all_hotkeys` walks the registration list with
`enumerate`, keeping the per-hotkey `triggered_states` index set; a
callback is invoked inside `try/except`, so an error is only appended to
the log. -/

/-- One registered hotkey: its chord and what its callback does when
invoked. -/
def RegisteredHotkey : Type := List Nat × Except String Unit

/-- `MultiHotkeyMonitor._check_all_hotkeys` (`src/hotkey_monitor.py`
lines 151-162), recursing over the registration list with the running
`enumerate` index.  Returns the new `triggered_states` set, the indices
whose callbacks were invoked on this tick (in iteration order), and the
messages of the exceptions caught from those callbacks. -/
def checkAllAux : List RegisteredHotkey → Nat → Finset Nat → List Nat →
    Finset Nat × List Nat × List String
  | [], _, triggered, _ => (triggered, [], [])
  | (keys, cb) :: rest, idx, triggered, down =>
    if isPressed keys down then
      if idx ∈ triggered then
        checkAllAux rest (idx + 1) triggered down
      else
        let r := checkAllAux rest (idx + 1) (insert idx triggered) down
        (r.1, idx :: r.2.1,
          match cb with
          | Except.error e => e :: r.2.2
          | Except.ok _ => r.2.2)
    else
      checkAllAux rest (idx + 1) (triggered.erase idx) down

/-- `_check_all_hotkeys` as called each tick: indices start at 0. -/
def checkAllHotkeys (hks : List RegisteredHotkey) (triggered : Finset Nat)
    (down : List Nat) : Finset Nat × List Nat × List String :=
  checkAllAux hks 0 triggered down

/-- The same registrations with every callback replaced by a normal
return. -/
def allOk (hks : List RegisteredHotkey) : List RegisteredHotkey :=
  hks.map (fun p => (p.1, Except.ok ()))

theorem checkAllAux_ok_agree (hks : List RegisteredHotkey) :
    ∀ (idx : Nat) (triggered : Finset Nat) (down : List Nat),
      (checkAllAux (allOk hks) idx triggered down).1 =
        (checkAllAux hks idx triggered down).1 ∧
      (checkAllAux (allOk hks) idx triggered down).2.1 =
        (checkAllAux hks idx triggered down).2.1 := by
  induction hks with
  | nil => intro idx triggered down; exact ⟨rfl, rfl⟩
  | cons p rest ih =>
    intro idx triggered down
    obtain ⟨keys, cb⟩ := p
    show (checkAllAux ((keys, Except.ok ()) :: allOk rest) idx triggered
      down).1 = _ ∧ _
    simp only [checkAllAux]
    split_ifs with hp ht
    · exact ih (idx + 1) triggered down
    · constructor
      · show (checkAllAux (allOk rest) (idx + 1) (insert idx triggered)
            down).1 =
          (checkAllAux rest (idx + 1) (insert idx triggered) down).1
        exact (ih (idx + 1) (insert idx triggered) down).1
      · show idx :: (checkAllAux (allOk rest) (idx + 1)
            (insert idx triggered) down).2.1 =
          idx :: (checkAllAux rest (idx + 1) (insert idx triggered)
            down).2.1
        rw [(ih (idx + 1) (insert idx triggered) down).2]
    · exact ih (idx + 1) (triggered.erase idx) down

theorem checkAllAux_mem_preserved (hks : List RegisteredHotkey) :
    ∀ (idx : Nat) (triggered : Finset Nat) (down : List Nat) (i : Nat),
      i ∈ triggered → i < idx →
        i ∈ (checkAllAux hks idx triggered down).1 := by
  induction hks with
  | nil => intro idx triggered down i hi _; exact hi
  | cons p rest ih =>
    intro idx triggered down i hi hlt
    obtain ⟨keys, cb⟩ := p
    simp only [checkAllAux]
    by_cases hp : isPressed keys down
    · rw [if_pos hp]
      by_cases ht : idx ∈ triggered
      · rw [if_pos ht]
        exact ih (idx + 1) triggered down i hi (by omega)
      · rw [if_neg ht]
        exact ih (idx + 1) (insert idx triggered) down i
          (Finset.mem_insert_of_mem hi) (by omega)
    · rw [if_neg hp]
      refine ih (idx + 1) (triggered.erase idx) down i ?_ (by omega)
      exact Finset.mem_erase_of_ne_of_mem (by omega) hi

theorem checkAllAux_fire_records (hks : List RegisteredHotkey) :
    ∀ (idx : Nat) (triggered : Finset Nat) (down : List Nat) (j : Nat)
      (hj : j < hks.length),
      isPressed (hks.get ⟨j, hj⟩).1 down = true →
      (idx + j) ∉ triggered →
      (idx + j) ∈ (checkAllAux hks idx triggered down).1 ∧
      (idx + j) ∈ (checkAllAux hks idx triggered down).2.1 ∧
      ∀ e, (hks.get ⟨j, hj⟩).2 = Except.error e →
        e ∈ (checkAllAux hks idx triggered down).2.2 := by
  induction hks with
  | nil => intro idx triggered down j hj; simp at hj
  | cons p rest ih =>
    intro idx triggered down j hj hpress hnt
    obtain ⟨keys, cb⟩ := p
    cases j with
    | zero =>
      have hp : isPressed keys down = true := hpress
      have ht : idx ∉ triggered := by simpa using hnt
      simp only [checkAllAux]
      rw [if_pos hp, if_neg ht]
      refine ⟨?_, ?_, ?_⟩
      · exact checkAllAux_mem_preserved rest (idx + 1)
          (insert idx triggered) down idx (Finset.mem_insert_self idx _)
          (by omega)
      · simp
      · intro e he
        have hcb : cb = Except.error e := he
        subst hcb
        simp
    | succ k =>
      have hk : k < rest.length := by simpa using hj
      have hpress' : isPressed (rest.get ⟨k, hk⟩).1 down = true := hpress
      have hsum : idx + (k + 1) = (idx + 1) + k := by omega
      simp only [checkAllAux]
      by_cases hp : isPressed keys down
      · rw [if_pos hp]
        by_cases ht : idx ∈ triggered
        · rw [if_pos ht]
          have hnt' : (idx + 1) + k ∉ triggered := by
            rw [← hsum]; exact hnt
          have := ih (idx + 1) triggered down k hk hpress' hnt'
          refine ⟨?_, ?_, ?_⟩
          · rw [hsum]; exact this.1
          · rw [hsum]; exact this.2.1
          · intro e he
            exact this.2.2 e he
        · rw [if_neg ht]
          have hnt' : (idx + 1) + k ∉ insert idx triggered := by
            intro hmem
            rcases Finset.mem_insert.mp hmem with heq | hmem2
            · omega
            · exact hnt (by rw [hsum]; exact hmem2)
          have := ih (idx + 1) (insert idx triggered) down k hk hpress' hnt'
          refine ⟨?_, ?_, ?_⟩
          · rw [hsum]; exact this.1
          · show idx + (k + 1) ∈ idx :: (checkAllAux rest (idx + 1)
              (insert idx triggered) down).2.1
            rw [hsum]
            exact List.mem_cons_of_mem idx this.2.1
          · intro e he
            have he' := this.2.2 e he
            cases cb with
            | error e2 => exact List.mem_cons_of_mem e2 he'
            | ok u => exact he'
      · rw [if_neg hp]
        have hnt' : (idx + 1) + k ∉ triggered.erase idx := by
          intro hmem
          exact hnt (by rw [hsum]; exact Finset.mem_of_mem_erase hmem)
        have := ih (idx + 1) (triggered.erase idx) down k hk hpress' hnt'
        refine ⟨?_, ?_, ?_⟩
        · rw [hsum]; exact this.1
        · rw [hsum]; exact this.2.1
        · intro e he
          exact this.2.2 e he

/-- C8 — callback-failure containment: when a registered hotkey whose
chord is fully down and whose edge-trigger is armed has a callback that
raises `e`, then in `_check_all_hotkeys`: the exception is caught and its
message logged (`e` is in the produced log, and the checker is a total
function — the poll loop continues), the raising hotkey's index is still
recorded in `triggered_states` (no immediate re-fire), and the resulting
trigger set and the whole invocation schedule — including every other
registered hotkey on this tick — are exactly what they would be if every
callback returned normally. -/
theorem checkAllHotkeys_callback_containment (hks : List RegisteredHotkey)
    (triggered : Finset Nat) (down : List Nat) (j : Nat)
    (hj : j < hks.length)
    (hpress : isPressed (hks.get ⟨j, hj⟩).1 down = true)
    (hnt : j ∉ triggered) (e : String)
    (herr : (hks.get ⟨j, hj⟩).2 = Except.error e) :
    j ∈ (checkAllHotkeys hks triggered down).1 ∧
    e ∈ (checkAllHotkeys hks triggered down).2.2 ∧
    (checkAllHotkeys hks triggered down).1 =
      (checkAllHotkeys (allOk hks) triggered down).1 ∧
    (checkAllHotkeys hks triggered down).2.1 =
      (checkAllHotkeys (allOk hks) triggered down).2.1 := by
  have hfire := checkAllAux_fire_records hks 0 triggered down j hj hpress
    (by simpa using hnt)
  have hagree := checkAllAux_ok_agree hks 0 triggered down
  exact ⟨by simpa using hfire.1, hfire.2.2 e herr,
    hagree.1.symm, hagree.2.symm⟩

/-- Witness for C8: two hotkeys, the first (Alt+P+N) fires and its
callback raises `"boom"`; the second (Ctrl+C) still fires on the same
tick. -/
theorem checkAllHotkeys_callback_containment_witness :
    0 ∈ (checkAllHotkeys
        [([18, 80, 78], Except.error "boom"), ([17, 67], Except.ok ())]
        ∅ [18, 80, 78, 17, 67]).1 ∧
    "boom" ∈ (checkAllHotkeys
        [([18, 80, 78], Except.error "boom"), ([17, 67], Except.ok ())]
        ∅ [18, 80, 78, 17, 67]).2.2 ∧
    (checkAllHotkeys
        [([18, 80, 78], Except.error "boom"), ([17, 67], Except.ok ())]
        ∅ [18, 80, 78, 17, 67]).1 =
      (checkAllHotkeys
        (allOk [([18, 80, 78], Except.error "boom"),
          ([17, 67], Except.ok ())])
        ∅ [18, 80, 78, 17, 67]).1 ∧
    (checkAllHotkeys
        [([18, 80, 78], Except.error "boom"), ([17, 67], Except.ok ())]
        ∅ [18, 80, 78, 17, 67]).2.1 =
      (checkAllHotkeys
        (allOk [([18, 80, 78], Except.error "boom"),
          ([17, 67], Except.ok ())])
        ∅ [18, 80, 78, 17, 67]).2.1 :=
  checkAllHotkeys_callback_containment
    [([18, 80, 78], Except.error "boom"), ([17, 67], Except.ok ())]
    ∅ [18, 80, 78, 17, 67] 0 (by decide) (by decide) (by decide) "boom" rfl

/-! ## Selection capture (`src/src/text_capture.py` and `src/selection.py`)

A focused UI-Automation element is modelled by the outcome of each
pattern-query strategy on it: `Except.error` for a raised COM/accessibility
error anywhere inside the strategy, `Except.ok none` for an unsupported
pattern or an empty selection list, `Except.ok (some raw)` for a raw
string obtained from the pattern.  `GetFocusedElement` itself is an
`Except Unit (Option UIAElement)` input (it may raise or yield no
element). -/

/-- The four pattern-query outcomes of one focused element:
`TextPattern`, `TextPattern2`, `ValuePattern`,
`LegacyIAccessiblePattern`. -/
structure UIAElement where
  text_pattern : Except Unit (Option String)
  text_pattern2 : Except Unit (Option String)
  value_pattern : Except Unit (Option String)
  legacy_pattern : Except Unit (Option String)

/-- The shared per-strategy wrapper (`_try_text_pattern` and friends, and
the `try/except` blocks of `copy_selection`): a raised error or an
unsupported/empty pattern falls through (`none`); a raw string wins only
if it is non-empty after trimming, and then the trimmed text is
returned. -/
def tryPattern : Except Unit (Option String) → Option String
  | Except.error _ => none
  | Except.ok none => none
  | Except.ok (some raw) =>
    if pyStrip raw = "" then none else some (pyStrip raw)

/-- `TextCapture.get_selected_text` (`src/src/text_capture.py` lines
86-140): `TextPattern`, then `TextPattern2`, then `ValuePattern`; there
is no legacy-pattern strategy in this function.  The outer `try/except`
maps a raised error and a missing focused element to `None`. -/
def get_selected_text (focused : Except Unit (Option UIAElement)) :
    Option String :=
  match focused with
  | Except.error _ => none
  | Except.ok none => none
  | Except.ok (some el) =>
    match tryPattern el.text_pattern with
    | some t => some t
    | none =>
      match tryPattern el.text_pattern2 with
      | some t => some t
      | none =>
        match tryPattern el.value_pattern with
        | some t => some t
        | none => none

/-- `copy_selection` (`src/selection.py` lines 7-76): the same cascade
with the `LegacyIAccessiblePattern` value query as fourth and last
strategy, returning `""` when everything falls through. -/
def copy_selection (focused : Except Unit (Option UIAElement)) : String :=
  match focused with
  | Except.error _ => ""
  | Except.ok none => ""
  | Except.ok (some el) =>
    match tryPattern el.text_pattern with
    | some t => t
    | none =>
      match tryPattern el.text_pattern2 with
      | some t => t
      | none =>
        match tryPattern el.value_pattern with
        | some t => t
        | none =>
          match tryPattern el.legacy_pattern with
          | some t => t
          | none => ""

/-- First strategy of a priority list that yields a non-empty trimmed
string (the shape of the claim's "the returned value equals the
whitespace-trimmed text of the first strategy producing a non-empty
trimmed string"). -/
def firstNonEmptyTrimmed : List (Except Unit (Option String)) →
    Option String
  | [] => none
  | r :: rs =>
    match tryPattern r with
    | some t => some t
    | none => firstNonEmptyTrimmed rs

/-- The claim's reading of `get_selected_text`, stated as written: four
strategies tried in priority order, the legacy accessibility value query
as last resort.  This definition follows the claim's words, to be
compared with `get_selected_text` as translated from the source. -/
def get_selected_text_claimed (focused : Except Unit (Option UIAElement)) :
    Option String :=
  match focused with
  | Except.error _ => none
  | Except.ok none => none
  | Except.ok (some el) =>
    firstNonEmptyTrimmed
      [el.text_pattern, el.text_pattern2, el.value_pattern,
        el.legacy_pattern]

/-- C4, counterexample — `TextCapture.get_selected_text` has no legacy
strategy: on an element where the three UIA patterns raise and only the
legacy accessibility value query yields text, the claim as stated
predicts the legacy trimmed text while the function returns `None`. -/
theorem get_selected_text_no_legacy_counterexample :
    get_selected_text (Except.ok (some
      ⟨Except.error (), Except.error (), Except.error (),
        Except.ok (some " hei ")⟩)) = none ∧
    get_selected_text_claimed (Except.ok (some
      ⟨Except.error (), Except.error (), Except.error (),
        Except.ok (some " hei ")⟩)) = some "hei" ∧
    tryPattern (Except.ok (some " hei ")) = some "hei" := by
  refine ⟨rfl, ?_, ?_⟩ <;> decide

/-- C4, amended — `get_selected_text` tries three strategies in fixed
priority order (`TextPattern`, `TextPattern2`, `ValuePattern`; the legacy
accessibility value query exists only in `copy_selection`, which tries
all four): a strategy that raises, is unsupported, or yields
empty/whitespace-only text falls through, the result is the
whitespace-trimmed text of the first strategy producing a non-empty
trimmed string, no result is produced when all fall through or the
element lookup fails, and no exception propagates (both functions are
total).  In particular, if strategy 1 errors and strategy 2 yields
non-empty text, both return strategy 2's trimmed text. -/
theorem get_selected_text_strategy_fallthrough (el : UIAElement)
    (t : String) :
    (get_selected_text (Except.ok (some el)) =
      firstNonEmptyTrimmed
        [el.text_pattern, el.text_pattern2, el.value_pattern]) ∧
    (∀ u : Unit, get_selected_text (Except.error u) = none) ∧
    (get_selected_text (Except.ok none) = none) ∧
    (copy_selection (Except.ok (some el)) =
      (firstNonEmptyTrimmed
        [el.text_pattern, el.text_pattern2, el.value_pattern,
          el.legacy_pattern]).getD "") ∧
    ((∃ u, el.text_pattern = Except.error u) →
      tryPattern el.text_pattern2 = some t →
      get_selected_text (Except.ok (some el)) = some t ∧
      copy_selection (Except.ok (some el)) = t) := by
  refine ⟨?_, fun u => rfl, rfl, ?_, ?_⟩
  · cases h1 : tryPattern el.text_pattern with
    | some t1 => simp [get_selected_text, firstNonEmptyTrimmed, h1]
    | none =>
      cases h2 : tryPattern el.text_pattern2 with
      | some t2 => simp [get_selected_text, firstNonEmptyTrimmed, h1, h2]
      | none =>
        cases h3 : tryPattern el.value_pattern with
        | some t3 =>
          simp [get_selected_text, firstNonEmptyTrimmed, h1, h2, h3]
        | none =>
          simp [get_selected_text, firstNonEmptyTrimmed, h1, h2, h3]
  · cases h1 : tryPattern el.text_pattern with
    | some t1 => simp [copy_selection, firstNonEmptyTrimmed, h1]
    | none =>
      cases h2 : tryPattern el.text_pattern2 with
      | some t2 => simp [copy_selection, firstNonEmptyTrimmed, h1, h2]
      | none =>
        cases h3 : tryPattern el.value_pattern with
        | some t3 => simp [copy_selection, firstNonEmptyTrimmed, h1, h2, h3]
        | none =>
          cases h4 : tryPattern el.legacy_pattern with
          | some t4 =>
            simp [copy_selection, firstNonEmptyTrimmed, h1, h2, h3, h4]
          | none =>
            simp [copy_selection, firstNonEmptyTrimmed, h1, h2, h3, h4]
  · rintro ⟨u, herr⟩ h2
    have h1 : tryPattern el.text_pattern = none := by
      rw [herr]
      rfl
    constructor
    · simp [get_selected_text, h1, h2]
    · simp [copy_selection, h1, h2]

/-- Witness for C4 (amended): strategy 1 raises, strategy 2 yields
`"  hei  "`, so both capture functions return `"hei"`. -/
theorem get_selected_text_strategy_fallthrough_witness :
    get_selected_text (Except.ok (some
      ⟨Except.error (), Except.ok (some "  hei  "), Except.ok none,
        Except.error ()⟩)) = some "hei" ∧
    copy_selection (Except.ok (some
      ⟨Except.error (), Except.ok (some "  hei  "), Except.ok none,
        Except.error ()⟩)) = "hei" :=
  (get_selected_text_strategy_fallthrough
    ⟨Except.error (), Except.ok (some "  hei  "), Except.ok none,
      Except.error ()⟩ "hei").2.2.2.2 ⟨(), rfl⟩ (by decide)

/-! ## First-word extraction (`src/src/main.py`,
`TextDisplayApp._on_hotkey_pressed`)

`word = text.strip().split()[0] if text.strip() else text.strip()` — the
word handed to `lexin_api.lookup`.  The `[0]` indexing is modelled with
`head?` (a `none` result would be Python's `IndexError`). -/

/-- The word computed by `_on_hotkey_pressed` from the captured text
(`src/src/main.py` line 62). -/
def first_word (text : String) : Option String :=
  if pyStrip text = "" then some (pyStrip text)
  else (pySplitWs (pyStrip text)).head?

/-- C9 — first-word truncation: whenever the captured selection trims to
a non-empty string (so it contains whitespace-separated words), the word
passed to the dictionary lookup is defined (no `IndexError`), equals
`text.strip().split()[0]`, is non-empty, and contains no whitespace
character. -/
theorem first_word_no_whitespace (text : String)
    (h : pyStrip text ≠ "") :
    ∃ w, first_word text = some w ∧
      (pySplitWs (pyStrip text)).head? = some w ∧
      w ≠ "" ∧ ∀ c ∈ w.data, pyIsSpace c = false := by
  have hdata : pyStripList text.data ≠ [] := by
    intro hnil
    apply h
    show (⟨pyStripList text.data⟩ : String) = ""
    rw [hnil]
  obtain ⟨c, cs, hl⟩ := List.exists_cons_of_ne_nil hdata
  have hc : pyIsSpace c = false := pyStripList_head_not_space text.data c cs hl
  have hsplit_ne : splitWsAux (c :: cs) [] ≠ [] :=
    splitWsAux_ne_nil_of_head c cs hc
  obtain ⟨a, as, ha⟩ := List.exists_cons_of_ne_nil hsplit_ne
  have hmem : a ∈ splitWsAux (c :: cs) [] := by
    rw [ha]
    exact List.mem_cons_self a as
  obtain ⟨hane, hasp⟩ := splitWsAux_words_ok (c :: cs) [] (by simp) a hmem
  have hdata2 : (pyStrip text).data = c :: cs := by
    show pyStripList text.data = c :: cs
    exact hl
  have hsplit : pySplitWs (pyStrip text) = (⟨a⟩ : String) :: as.map
      (fun l => (⟨l⟩ : String)) := by
    unfold pySplitWs
    rw [hdata2, ha]
    rfl
  refine ⟨⟨a⟩, ?_, ?_, ?_, ?_⟩
  · unfold first_word
    rw [if_neg h, hsplit]
    rfl
  · rw [hsplit]
    rfl
  · intro hempty
    apply hane
    have : (⟨a⟩ : String).data = ("" : String).data := by rw [hempty]
    simpa using this
  · intro d hd
    exact hasp d hd

/-- Witness for C9 on the captured text `"  hei verden  "`. -/
theorem first_word_no_whitespace_witness :
    ∃ w, first_word "  hei verden  " = some w ∧
      (pySplitWs (pyStrip "  hei verden  ")).head? = some w ∧
      w ≠ "" ∧ ∀ c ∈ w.data, pyIsSpace c = false :=
  first_word_no_whitespace "  hei verden  " (by decide)

/-! ## Update checker (`src/src/update_checker.py`)

Version parsing follows Python `int(x)` on the dot-separated pieces of
the version string: surrounding whitespace is allowed, an optional sign,
then decimal digits with single underscores permitted between digits.
The `try/except` of `_compare_versions` wraps the parse, so any
malformed piece makes the whole comparison return `0`. -/

/-- Decimal digits with single underscores between digits, as Python's
`int` accepts; `acc` is the value parsed so far. -/
def digitsUnderscore (acc : Nat) : List Char → Option Nat
  | [] => some acc
  | '_' :: c :: cs =>
    if c.isDigit then digitsUnderscore (acc * 10 + (c.toNat - 48)) cs
    else none
  | ['_'] => none
  | c :: cs =>
    if c.isDigit then digitsUnderscore (acc * 10 + (c.toNat - 48)) cs
    else none

/-- A non-empty digit run (with underscores), used after the optional
sign. -/
def digitsStart : List Char → Option Nat
  | [] => none
  | c :: cs =>
    if c.isDigit then digitsUnderscore (c.toNat - 48) cs else none

/-- Python `int(s)` for a decimal string: strip whitespace, optional
sign, digits. `none` is a raised `ValueError`. -/
def pyInt (l : List Char) : Option Int :=
  match pyStripList l with
  | '+' :: rest => (digitsStart rest).map Int.ofNat
  | '-' :: rest => (digitsStart rest).map (fun n => -(n : Int))
  | t => (digitsStart t).map Int.ofNat

/-- `v.split('.')` on a character list, keeping empty pieces. -/
def splitOnDot : List Char → List Char → List (List Char)
  | [], acc => [acc.reverse]
  | c :: cs, acc =>
    if c = '.' then acc.reverse :: splitOnDot cs []
    else splitOnDot cs (c :: acc)

/-- `[int(x) for x in v.split('.')]`: `none` when any piece raises. -/
def parseParts : List (List Char) → Option (List Int)
  | [] => some []
  | p :: ps =>
    match pyInt p, parseParts ps with
    | some n, some ns => some (n :: ns)
    | _, _ => none

/-- `parse_version` inside `UpdateInfo._compare_versions`
(`src/src/update_checker.py` lines 35-36). -/
def parse_version (v : String) : Option (List Int) :=
  parseParts (splitOnDot v.data [])

/-- The comparison loop over the zipped padded part lists. -/
def cmpParts : List (Int × Int) → Int
  | [] => 0
  | (p1, p2) :: rest =>
    if p1 > p2 then 1 else if p1 < p2 then -1 else cmpParts rest

/-- `UpdateInfo._compare_versions` (`src/src/update_checker.py` lines
29-55): parse both versions, pad with zeros to equal length, compare
componentwise; any parse failure is caught by the `except` and yields
`0`.  The function never raises (it is total). -/
def compare_versions (v1 v2 : String) : Int :=
  match parse_version v1, parse_version v2 with
  | some p1, some p2 =>
    let n := max p1.length p2.length
    cmpParts ((p1 ++ List.replicate (n - p1.length) 0).zip
      (p2 ++ List.replicate (n - p2.length) 0))
  | _, _ => 0

/-- The `UpdateInfo` dataclass (`src/src/update_checker.py` lines
16-27). -/
structure UpdateInfo where
  current_version : String
  latest_version : String
  download_url : String
  release_notes : String
  release_page_url : String

/-- `UpdateInfo.is_newer`. -/
def UpdateInfo.is_newer (u : UpdateInfo) : Bool :=
  decide (compare_versions u.latest_version u.current_version > 0)

/-- `UpdateChecker.check_for_updates` (`src/src/update_checker.py` lines
122-149), with the environment passed explicitly: `should_check` is the
throttle decision, `api_result` what `_check_github_api` produced and
`file_result` what `_check_version_file` produced (`none` = the HTTP
fetch failed).  `mark_checked` only writes the cache file and is not
popup/update state. -/
def check_for_updates (force should_check : Bool)
    (api_result file_result : Option UpdateInfo) : Option UpdateInfo :=
  if !force && !should_check then none
  else
    let update_info :=
      match api_result with
      | some u => some u
      | none => file_result
    match update_info with
    | some u => if u.is_newer then some u else none
    | none => none

/-- An `UpdateInfo` whose version pair cannot be compared: the latest or
the current version string fails to parse as dot-separated integers. -/
def malformedPair (u : UpdateInfo) : Prop :=
  parse_version u.latest_version = none ∨
    parse_version u.current_version = none

theorem compare_versions_malformed (v1 v2 : String)
    (h : parse_version v1 = none ∨ parse_version v2 = none) :
    compare_versions v1 v2 = 0 := by
  unfold compare_versions
  rcases h with h | h
  · rw [h]
  · rw [h]
    cases parse_version v1 <;> rfl

/-- C10 — malformed versions never notify: if either version string of an
`UpdateInfo` fails to parse as dot-separated integers, then
`_compare_versions` returns `0` (the parse error is caught; comparison
never raises), hence `is_newer()` is `False`; and when every candidate
`UpdateInfo` the two fetches can deliver is malformed in this way,
`check_for_updates` returns no result — a malformed current or latest
version can never produce an update notification. -/
theorem check_for_updates_malformed_none (force should_check : Bool)
    (api_result file_result : Option UpdateInfo)
    (hapi : ∀ u, api_result = some u → malformedPair u)
    (hfile : ∀ u, file_result = some u → malformedPair u) :
    check_for_updates force should_check api_result file_result = none ∧
    (∀ u : UpdateInfo, malformedPair u →
      compare_versions u.latest_version u.current_version = 0 ∧
      u.is_newer = false) := by
  have hnn : ∀ u : UpdateInfo, malformedPair u →
      compare_versions u.latest_version u.current_version = 0 ∧
      u.is_newer = false := by
    intro u hu
    have hc : compare_versions u.latest_version u.current_version = 0 :=
      compare_versions_malformed _ _ hu
    refine ⟨hc, ?_⟩
    unfold UpdateInfo.is_newer
    rw [hc]
    rfl
  refine ⟨?_, hnn⟩
  unfold check_for_updates
  by_cases hforce : (!force && !should_check) = true
  · rw [if_pos hforce]
  · rw [if_neg hforce]
    cases hapiv : api_result with
    | some u =>
      have := (hnn u (hapi u hapiv)).2
      simp [this]
    | none =>
      cases hfilev : file_result with
      | some u =>
        have := (hnn u (hfile u hfilev)).2
        simp [this]
      | none => rfl

/-- Witness for C10: the GitHub API yields latest version `"abc"`
(unparseable) against current `"1.0"`, the fallback fetch fails; no
notification results. -/
theorem check_for_updates_malformed_none_witness :
    check_for_updates true true
      (some ⟨"1.0", "abc", "", "", ""⟩) none = none ∧
    (∀ u : UpdateInfo, malformedPair u →
      compare_versions u.latest_version u.current_version = 0 ∧
      u.is_newer = false) :=
  check_for_updates_malformed_none true true
    (some ⟨"1.0", "abc", "", "", ""⟩) none
    (by
      intro u hu
      rcases Option.some.inj hu with rfl
      exact Or.inl (by decide))
    (by intro u hu; cases hu)

end NorskLookup
